import Mathlib

/-!
# Verification of the fantom-api-graphql network-crawler modules

Shallow embedding of the node-crawler slice of the repository:
the `NetworkNode` record with its BSON codec (`types` package),
the `networkCrawler` service (`svc` package: configuration,
bootstrap resolution, key setup, run/crawl lifecycle) and the
`ListPageInfo` GraphQL resolver helper.

External library behaviour (go-ethereum `enode` URL parsing and
printing, `crypto.HexToECDSA`, BSON field decoding) is modelled
from the specification, since those libraries are not part of the
repository source; every such definition carries a doc comment
starting with `Modelled from the spec:`.
-/

namespace Fantom

/-- Timestamps are opaque; we model `time.Time` as an integer instant. -/
abbrev Time := Int

/-! ## Character / decimal-number helpers used by the URL model -/

/-- Decimal digit value of a character, `none` for a non-digit. -/
def charToDigit (c : Char) : Option Nat :=
  if c.isDigit then some (c.toNat - '0'.toNat) else none

/-- Character for a decimal digit value below ten. -/
def digitToChar (d : Nat) : Char :=
  if d < 10 then Char.ofNat ('0'.toNat + d) else '*'

/-- Fuel-bounded decimal rendering of a natural number, most significant digit first. -/
def natCharsAux : Nat → Nat → List Char
  | 0, _ => []
  | fuel + 1, n =>
    if n = 0 then [] else natCharsAux fuel (n / 10) ++ [digitToChar (n % 10)]

/-- Decimal rendering of a natural number. -/
def natToChars (n : Nat) : List Char :=
  if n = 0 then ['0'] else natCharsAux n n

/-- Accumulating decimal reader; fails on any non-digit character. -/
def readNatAux : Nat → List Char → Option Nat
  | acc, [] => some acc
  | acc, c :: cs =>
    match charToDigit c with
    | some d => readNatAux (acc * 10 + d) cs
    | none => none

/-- Reads a non-empty, all-digit character list as a natural number. -/
def readNat : List Char → Option Nat
  | [] => none
  | cs => readNatAux 0 cs

/-- Splits a character list at the first occurrence of `c`;
`none` when `c` does not occur. -/
def splitFirst (c : Char) : List Char → Option (List Char × List Char)
  | [] => none
  | x :: xs =>
    if x = c then some ([], xs)
    else
      match splitFirst c xs with
      | none => none
      | some (pre, post) => some (x :: pre, post)

/-! ## Node addresses (go-ethereum `enode`, modelled from the spec) -/

/-- Modelled from the spec: a discovered network node identity —
node id plus endpoint host and port, as carried by the
`scheme://<id>@<host>:<port>` node-address form (`enode.Node` is
not part of the repository source). -/
structure ENode where
  id : String
  host : String
  port : Nat
deriving DecidableEq

/-- Modelled from the spec: the canonical node-address string of a node
(`enode.Node.String()`), encoding id and endpoint as
`enode://<id>@<host>:<port>`. -/
def nodeURL (n : ENode) : String :=
  String.mk ("enode://".data ++ n.id.data ++ '@' :: n.host.data ++ ':' :: natToChars n.port)

/-- Modelled from the spec: `enode.ParseV4` — accepts only the
`enode://<id>@<host>:<port>` form and yields the node record with the
endpoint host and port taken from the URL. -/
def parseNodeV4 (url : String) : Option ENode :=
  if "enode://".data.isPrefixOf url.data then
    match splitFirst '@' (url.data.drop "enode://".data.length) with
    | none => none
    | some (idCs, hostPort) =>
      match splitFirst ':' hostPort with
      | none => none
      | some (hostCs, portCs) =>
        match readNat portCs with
        | none => none
        | some p => some ⟨String.mk idCs, String.mk hostCs, p⟩
  else none

/-- A node is valid when its id and host cannot collide with the URL
separators of the canonical address form. -/
def ENode.wellFormed (n : ENode) : Prop :=
  '@' ∉ n.id.data ∧ ':' ∉ n.host.data

instance (n : ENode) : Decidable n.wellFormed := by
  unfold ENode.wellFormed
  infer_instance

/-- `url2node` from `svc/net_crawl.go`: rejects URLs without the
`enode://` prefix with the `invalid enode url` error, otherwise defers
to the V4 parser. -/
def url2node (url : String) : Except String ENode :=
  if "enode://".data.isPrefixOf url.data then
    match parseNodeV4 url with
    | some n => Except.ok n
    | none => Except.error ("invalid node URL " ++ url)
  else Except.error ("invalid enode url [" ++ url ++ "]")

/-! ## Crawler configuration (`svc` package) -/

/-- The local discovery keypair: either freshly generated or parsed
from configured key material. -/
inductive PrivateKey where
  | generated
  | parsed (hex : String)
deriving DecidableEq

/-- A hexadecimal digit character, either case. -/
def isHexChar (c : Char) : Bool :=
  c.isDigit || ('a' ≤ c && c ≤ 'f') || ('A' ≤ c && c ≤ 'F')

/-- Modelled from the spec: `crypto.HexToECDSA` — parses a 64-character
hexadecimal secret into a keypair, failing on any other input. -/
def hexToECDSA (s : String) : Option PrivateKey :=
  if s.data.length = 64 && s.data.all isHexChar then
    some (PrivateKey.parsed s)
  else none

/-- `networkCrawler.setPrivateKey`: generates a fresh keypair when no
key material is configured, otherwise parses the configured hex key and
propagates a parse failure as an error. -/
def setPrivateKey (nodeKey : String) : Except String PrivateKey :=
  if nodeKey = "" then Except.ok PrivateKey.generated
  else
    match hexToECDSA nodeKey with
    | some k => Except.ok k
    | none => Except.error ("invalid hex key " ++ nodeKey)

/-- `networkCrawler.setBootstrap`: resolves the configured bootstrap
URLs in order, aborting with the first parse error. -/
def setBootstrap : List String → Except String (List ENode)
  | [] => Except.ok []
  | url :: rest =>
    match url2node url with
    | Except.error e => Except.error e
    | Except.ok n =>
      match setBootstrap rest with
      | Except.error e => Except.error e
      | Except.ok ns => Except.ok (n :: ns)

/-- The observable lifecycle state of the `networkCrawler` service. -/
structure CrawlerState where
  isReady : Bool
  nodeCreated : Bool
  startedSignaled : Bool
  crawlStarted : Bool
deriving DecidableEq

/-- A freshly constructed crawler: not ready, nothing started. -/
def initialState : CrawlerState := ⟨false, false, false, false⟩

/-- `networkCrawler.configure`: key setup, then bootstrap resolution,
then node-registry open (the registry open is an external database
operation, passed in as its result), failing fast on the first error. -/
def configure (nodeKey : String) (urls : List String)
    (dbResult : Except String Unit) : Except String Unit :=
  match setPrivateKey nodeKey with
  | Except.error e => Except.error e
  | Except.ok _ =>
    match setBootstrap urls with
    | Except.error e => Except.error e
    | Except.ok _ => dbResult

/-- `networkCrawler.init`: runs `configure`; only a successful
configuration marks the service ready. -/
def init (nodeKey : String) (urls : List String)
    (dbResult : Except String Unit) (s : CrawlerState) : CrawlerState :=
  match configure nodeKey urls dbResult with
  | Except.error _ => s
  | Except.ok _ => { s with isReady := true }

/-- `networkCrawler.run`: returns immediately when the service is not
ready; otherwise creates the local node, and on a successful listen
signals the orchestrator and starts the crawl loop. -/
def run (listenResult : Except String Unit) (s : CrawlerState) : CrawlerState :=
  if s.isReady = false then s
  else
    let s1 := { s with nodeCreated := true }
    match listenResult with
    | Except.error _ => s1
    | Except.ok _ => { s1 with startedSignaled := true, crawlStarted := true }

/-- Observable events of the crawl loop's shutdown path. -/
inductive CrawlEvent where
  | closeDiscovery
  | finishedSignal
deriving DecidableEq

/-- The body of `networkCrawler.crawl` emits no events of its own. -/
def crawlBody : List CrawlEvent := []

/-- The deferred cleanup of `networkCrawler.crawl`: close the discovery
transport, then signal the orchestrator that the service finished. -/
def crawlDeferred : List CrawlEvent :=
  [CrawlEvent.closeDiscovery, CrawlEvent.finishedSignal]

/-- The full event trace of one `crawl` invocation: the loop body
followed by its deferred cleanup. -/
def crawl : List CrawlEvent := crawlBody ++ crawlDeferred

/-! ## The `NetworkNode` record and its BSON codec (`types` package) -/

/-- `types.NetworkNode`: a discovered node with its reliability score
and bookkeeping timestamps. The node pointer is `none` when unset
(Go `nil`). Go's machine `int` scores the spec only exercises far from
overflow, so the score is an unbounded integer. -/
structure NetworkNode where
  Node : Option ENode
  Score : Int
  Found : Time
  LastResponse : Time
  LastCheck : Time
deriving DecidableEq

/-- Modelled from the spec: the failed-probe scoring rule applied by the
crawl loop's probe bookkeeping (not present under the repository source):
on a failed probe the score is halved by Go integer division, the check
timestamp is set to the probe time, and the last-response timestamp is
left untouched. -/
def failProbe (now : Time) (nn : NetworkNode) : NetworkNode :=
  { nn with Score := Int.tdiv nn.Score 2, LastCheck := now }

/-- A sequence of consecutive failed probes at the given instants. -/
def failProbes : List Time → NetworkNode → NetworkNode
  | [], nn => nn
  | t :: ts, nn => failProbes ts (failProbe t nn)

/-- A single typed BSON field value as used by the node record codec. -/
inductive BsonValue where
  | str (s : String)
  | int (i : Int)
  | time (t : Time)
deriving DecidableEq

/-- A BSON document: an ordered list of named fields. -/
abbrev BsonDoc := List (String × BsonValue)

/-- First field of the document with the given name. -/
def findField (name : String) : BsonDoc → Option BsonValue
  | [] => none
  | (k, v) :: rest => if k = name then some v else findField name rest

/-- Modelled from the spec: BSON decode of a string field — a missing
field decodes to the Go zero value, a field of the wrong type fails. -/
def getStr (name : String) (doc : BsonDoc) : Option String :=
  match findField name doc with
  | none => some ""
  | some (BsonValue.str s) => some s
  | some _ => none

/-- Modelled from the spec: BSON decode of an integer field. -/
def getInt (name : String) (doc : BsonDoc) : Option Int :=
  match findField name doc with
  | none => some 0
  | some (BsonValue.int i) => some i
  | some _ => none

/-- Modelled from the spec: BSON decode of a timestamp field. -/
def getTime (name : String) (doc : BsonDoc) : Option Time :=
  match findField name doc with
  | none => some 0
  | some (BsonValue.time t) => some t
  | some _ => none

/-- The intermediate row structure both codec directions share, with
its BSON field tags `scheme`, `url`, `score`, `found`, `valid`,
`check`. -/
structure BsonRow where
  scheme : String
  url : String
  score : Int
  found : Time
  valid : Time
  check : Time
deriving DecidableEq

/-- Modelled from the spec: `bson.Unmarshal` of a document into the
row structure, field by field. -/
def decodeRow (doc : BsonDoc) : Option BsonRow :=
  (getStr "scheme" doc).bind fun sch =>
    (getStr "url" doc).bind fun u =>
      (getInt "score" doc).bind fun sc =>
        (getTime "found" doc).bind fun f =>
          (getTime "valid" doc).bind fun v =>
            (getTime "check" doc).bind fun c =>
              some ⟨sch, u, sc, f, v, c⟩

/-- `NetworkNode.MarshalBSON`: encodes the record as a document with
fields `scheme` (fixed `v4` tag), `url` (canonical node address),
`score`, `found`, `valid` (last successful response) and `check`
(last attempt). Dereferencing a `nil` node pointer cannot produce a
document, hence the `Option`. -/
def MarshalBSON (nn : NetworkNode) : Option BsonDoc :=
  match nn.Node with
  | none => none
  | some n =>
    some [("scheme", BsonValue.str "v4"),
          ("url", BsonValue.str (nodeURL n)),
          ("score", BsonValue.int nn.Score),
          ("found", BsonValue.time nn.Found),
          ("valid", BsonValue.time nn.LastResponse),
          ("check", BsonValue.time nn.LastCheck)]

/-- `NetworkNode.UnmarshalBSON`: decodes the row, re-derives the node
identity from the `url` field (`enode.Parse` with the valid schemes,
which for canonical `enode://` URLs is the V4 parser), and only then
copies score and timestamps. The result pairs the Go error value with
the receiver's state after the call; as in the source, a failed URL
parse has already overwritten the node pointer with the parser's `nil`
result when the error returns. -/
def UnmarshalBSON (nn : NetworkNode) (data : BsonDoc) :
    Option String × NetworkNode :=
  match decodeRow data with
  | none => (some "bson unmarshal failed", nn)
  | some row =>
    match parseNodeV4 row.url with
    | none => (some ("corrupt node URL " ++ row.url), { nn with Node := none })
    | some nd =>
      (none, { Node := some nd, Score := row.score, Found := row.found,
               LastResponse := row.valid, LastCheck := row.check })

/-! ## GraphQL list page info (`resolvers` package) -/

/-- An opaque list cursor. -/
abbrev Cursor := String

/-- `resolvers.ListPageInfo`: resolvable information about the current
page of a list; the cursor fields are pointers in the source, hence
optional here. -/
structure ListPageInfo where
  First : Option Cursor
  Last : Option Cursor
  HasNext : Bool
  HasPrevious : Bool
deriving DecidableEq

/-- `resolvers.NewListPageInfo`: requires both cursors and otherwise
copies its four arguments into the structure. -/
def NewListPageInfo (first last : Option Cursor)
    (hasNext hasPrevious : Bool) : Except String ListPageInfo :=
  if first = none ∨ last = none then
    Except.error "missing one of the cursors"
  else Except.ok ⟨first, last, hasNext, hasPrevious⟩

end Fantom

namespace Fantom

theorem isPrefixOf_append_self (l₁ l₂ : List Char) :
    l₁.isPrefixOf (l₁ ++ l₂) = true := by
  induction l₁ with
  | nil => simp [List.isPrefixOf]
  | cons a as ih => simp [List.isPrefixOf, ih]

theorem drop_length_append (l₁ l₂ : List Char) :
    (l₁ ++ l₂).drop l₁.length = l₂ := by
  induction l₁ with
  | nil => rfl
  | cons a as ih => simp [ih]

theorem splitFirst_append_cons (c : Char) (pre rest : List Char) (h : c ∉ pre) :
    splitFirst c (pre ++ c :: rest) = some (pre, rest) := by
  induction pre with
  | nil => simp [splitFirst]
  | cons x xs ih =>
    have hx : x ≠ c := fun hx => h (by simp [hx])
    have hm : c ∉ xs := fun hm => h (List.mem_cons_of_mem _ hm)
    simp [splitFirst, hx, ih hm]

theorem readNatAux_append (l₁ l₂ : List Char) :
    ∀ acc, readNatAux acc (l₁ ++ l₂) =
      match readNatAux acc l₁ with
      | some a => readNatAux a l₂
      | none => none := by
  induction l₁ with
  | nil => intro acc; rfl
  | cons x xs ih =>
    intro acc
    cases hx : charToDigit x with
    | none => simp [readNatAux, hx]
    | some d => simp [readNatAux, hx, ih]

theorem charToDigit_digitToChar (d : Nat) (h : d < 10) :
    charToDigit (digitToChar d) = some d := by
  interval_cases d <;> rfl

theorem readNatAux_natCharsAux :
    ∀ (fuel n acc : Nat), n ≤ fuel →
      readNatAux acc (natCharsAux fuel n) =
        some (acc * 10 ^ (natCharsAux fuel n).length + n) := by
  intro fuel
  induction fuel with
  | zero =>
    intro n acc h
    have hn : n = 0 := Nat.le_zero.mp h
    subst hn
    simp [natCharsAux, readNatAux]
  | succ fuel ih =>
    intro n acc h
    by_cases hn : n = 0
    · subst hn; simp [natCharsAux, readNatAux]
    · have hlt : n / 10 < n := Nat.div_lt_self (Nat.pos_of_ne_zero hn) (by omega)
      have hle : n / 10 ≤ fuel := by omega
      have hmod : n % 10 < 10 := Nat.mod_lt _ (by omega)
      simp only [natCharsAux, if_neg hn]
      rw [readNatAux_append]
      rw [ih (n / 10) acc hle]
      simp only [readNatAux, charToDigit_digitToChar (n % 10) hmod]
      have hd : 10 * (n / 10) + n % 10 = n := Nat.div_add_mod n 10
      congr 1
      rw [List.length_append, List.length_cons, List.length_nil, pow_succ]
      ring_nf
      omega

theorem readNat_of_ne_nil (l : List Char) (h : l ≠ []) :
    readNat l = readNatAux 0 l := by
  cases l with
  | nil => exact absurd rfl h
  | cons c cs => rfl

theorem natCharsAux_ne_nil (fuel n : Nat) (h0 : n ≠ 0) (hf : n ≤ fuel) :
    natCharsAux fuel n ≠ [] := by
  cases fuel with
  | zero => omega
  | succ fuel => simp [natCharsAux, if_neg h0]

theorem readNat_natToChars (n : Nat) : readNat (natToChars n) = some n := by
  by_cases hn : n = 0
  · subst hn; rfl
  · rw [natToChars, if_neg hn,
        readNat_of_ne_nil _ (natCharsAux_ne_nil n n hn le_rfl),
        readNatAux_natCharsAux n n 0 le_rfl]
    simp

theorem parseNodeV4_nodeURL (n : ENode) (h : n.wellFormed) :
    parseNodeV4 (nodeURL n) = some n := by
  obtain ⟨hid, hhost⟩ := h
  have hdata : (nodeURL n).data =
      "enode://".data ++
        (n.id.data ++ '@' :: (n.host.data ++ ':' :: natToChars n.port)) := by
    simp [nodeURL]
  unfold parseNodeV4
  rw [hdata, isPrefixOf_append_self, drop_length_append, if_pos rfl]
  rw [splitFirst_append_cons '@' n.id.data _ hid]
  dsimp only
  rw [splitFirst_append_cons ':' n.host.data _ hhost]
  dsimp only
  rw [readNat_natToChars]

theorem failProbes_lastResponse (ts : List Time) (nn : NetworkNode) :
    (failProbes ts nn).LastResponse = nn.LastResponse := by
  induction ts generalizing nn with
  | nil => rfl
  | cons t ts ih => simp [failProbes, ih, failProbe]

theorem failProbes_score_ofNat (ts : List Time) :
    ∀ (nn : NetworkNode) (m : Nat), nn.Score = (m : Int) →
      (failProbes ts nn).Score = ((m / 2 ^ ts.length : Nat) : Int) := by
  induction ts with
  | nil => intro nn m h; simpa using h
  | cons t ts ih =>
    intro nn m h
    have hstep : (failProbe t nn).Score = ((m / 2 : Nat) : Int) := by
      simp only [failProbe, h]
      rw [Int.ofNat_tdiv]
      rfl
    have hrec := ih (failProbe t nn) (m / 2) hstep
    show (failProbes ts (failProbe t nn)).Score = _
    rw [hrec, Nat.div_div_eq_div_mul]
    congr 2
    rw [List.length_cons, pow_succ]
    ring

/-- C1: starting from a score `s0 ≥ 0`, `n` consecutive failed probes
leave the score at `⌊s0 / 2^n⌋`; the score is never negative after any
failure sequence, and a failed probe leaves the last-response timestamp
unchanged. -/
theorem failProbes_spec (nn : NetworkNode) (ts : List Time) (h : 0 ≤ nn.Score) :
    (failProbes ts nn).Score = nn.Score / 2 ^ ts.length ∧
    0 ≤ (failProbes ts nn).Score ∧
    (failProbes ts nn).LastResponse = nn.LastResponse := by
  obtain ⟨m, hm⟩ := Int.eq_ofNat_of_zero_le h
  have hs := failProbes_score_ofNat ts nn m hm
  refine ⟨?_, ?_, failProbes_lastResponse ts nn⟩
  · rw [hs, hm, Int.natCast_div]
    norm_cast
  · rw [hs]
    exact Int.natCast_nonneg _

/-- Witness for C1 at score 5 and two failed probes. -/
theorem failProbes_spec_witness :
    (failProbes [3, 4] ⟨none, 5, 0, 2, 7⟩).Score = (5 : Int) / 2 ^ 2 ∧
    0 ≤ (failProbes [3, 4] ⟨none, 5, 0, 2, 7⟩).Score ∧
    (failProbes [3, 4] ⟨none, 5, 0, 2, 7⟩).LastResponse = 2 :=
  failProbes_spec ⟨none, 5, 0, 2, 7⟩ [3, 4] (by decide)

/-- C4: the crawl loop's event trace closes the discovery transport
exactly once, emits exactly one finished signal, and every close
happens strictly before every finished signal. -/
theorem crawl_trace_spec :
    crawl.count CrawlEvent.closeDiscovery = 1 ∧
    crawl.count CrawlEvent.finishedSignal = 1 ∧
    ∀ (i j : Nat) (hi : i < crawl.length) (hj : j < crawl.length),
      crawl[i] = CrawlEvent.closeDiscovery →
      crawl[j] = CrawlEvent.finishedSignal → i < j := by
  refine ⟨by decide, by decide, ?_⟩
  intro i j hi hj
  have hi2 : i < 2 := hi
  have hj2 : j < 2 := hj
  interval_cases i <;> interval_cases j <;>
    simp [crawl, crawlBody, crawlDeferred]

/-- Witness for C4: the close event sits at index 0, the finished
signal at index 1. -/
theorem crawl_trace_spec_witness :
    crawl.count CrawlEvent.closeDiscovery = 1 ∧ (0 : Nat) < 1 :=
  ⟨crawl_trace_spec.1,
   crawl_trace_spec.2.2 0 1 (by decide) (by decide) (by decide) (by decide)⟩

/-- C7: with no configured key material a fresh keypair is generated;
configured key material is parsed, a successful parse is returned as
the keypair and a parse failure is returned as an error. -/
theorem setPrivateKey_spec :
    setPrivateKey "" = Except.ok PrivateKey.generated ∧
    (∀ (s : String) (k : PrivateKey), s ≠ "" → hexToECDSA s = some k →
      setPrivateKey s = Except.ok k) ∧
    (∀ s : String, s ≠ "" → hexToECDSA s = none →
      ∃ e, setPrivateKey s = Except.error e) := by
  refine ⟨rfl, ?_, ?_⟩
  · intro s k hs hk
    simp [setPrivateKey, hs, hk]
  · intro s hs hk
    exact ⟨"invalid hex key " ++ s, by simp [setPrivateKey, hs, hk]⟩

/-- Witness for C7: empty configuration generates, a 64-character hex
key parses, a malformed key fails. -/
theorem setPrivateKey_spec_witness :
    setPrivateKey "" = Except.ok PrivateKey.generated ∧
    setPrivateKey "aaaaaaaaaaaaaaaaaaaaaaaaaaaaaaaaaaaaaaaaaaaaaaaaaaaaaaaaaaaaaaaa" =
      Except.ok (PrivateKey.parsed
        "aaaaaaaaaaaaaaaaaaaaaaaaaaaaaaaaaaaaaaaaaaaaaaaaaaaaaaaaaaaaaaaa") ∧
    (∃ e, setPrivateKey "zz" = Except.error e) :=
  ⟨setPrivateKey_spec.1,
   setPrivateKey_spec.2.1
     "aaaaaaaaaaaaaaaaaaaaaaaaaaaaaaaaaaaaaaaaaaaaaaaaaaaaaaaaaaaaaaaa"
     (PrivateKey.parsed
       "aaaaaaaaaaaaaaaaaaaaaaaaaaaaaaaaaaaaaaaaaaaaaaaaaaaaaaaaaaaaaaaa")
     (by decide) (by decide),
   setPrivateKey_spec.2.2 "zz" (by decide) (by decide)⟩

/-- C10: `NewListPageInfo` fails exactly when one of the cursors is
missing, and with both cursors present it copies its four arguments
into the returned structure. -/
theorem NewListPageInfo_spec (first last : Option Cursor)
    (hasNext hasPrevious : Bool) :
    ((∃ e, NewListPageInfo first last hasNext hasPrevious = Except.error e) ↔
      (first = none ∨ last = none)) ∧
    (first ≠ none → last ≠ none →
      NewListPageInfo first last hasNext hasPrevious =
        Except.ok ⟨first, last, hasNext, hasPrevious⟩) := by
  by_cases h : first = none ∨ last = none
  · refine ⟨⟨fun _ => h,
      fun _ => ⟨"missing one of the cursors", by simp [NewListPageInfo, h]⟩⟩, ?_⟩
    intro h1 h2
    cases h with
    | inl h => exact absurd h h1
    | inr h => exact absurd h h2
  · refine ⟨⟨?_, fun hh => absurd hh h⟩, fun _ _ => by simp [NewListPageInfo, h]⟩
    rintro ⟨e, he⟩
    rw [show NewListPageInfo first last hasNext hasPrevious =
          Except.ok ⟨first, last, hasNext, hasPrevious⟩ from by
        simp [NewListPageInfo, h]] at he
    exact Except.noConfusion he

/-- Witness for C10 with both cursors present. -/
theorem NewListPageInfo_spec_witness :
    ((∃ e, NewListPageInfo (some "a") (some "b") true false = Except.error e) ↔
      ((some "a" : Option Cursor) = none ∨ (some "b" : Option Cursor) = none)) ∧
    NewListPageInfo (some "a") (some "b") true false =
      Except.ok ⟨some "a", some "b", true, false⟩ :=
  ⟨(NewListPageInfo_spec (some "a") (some "b") true false).1,
   (NewListPageInfo_spec (some "a") (some "b") true false).2
     (by decide) (by decide)⟩

theorem setBootstrap_append_error (good : List String) (bad : String)
    (rest : List String) (e : String)
    (hg : ∀ u ∈ good, ∃ n, url2node u = Except.ok n)
    (hb : url2node bad = Except.error e) :
    setBootstrap (good ++ bad :: rest) = Except.error e := by
  induction good with
  | nil => simp [setBootstrap, hb]
  | cons g gs ih =>
    obtain ⟨n, hn⟩ := hg g (by simp)
    have hrest := ih (fun u hu => hg u (by simp [hu]))
    simp [setBootstrap, hn, hrest]

/-- C2: a URL without the `enode://` prefix makes `url2node` fail with
the `invalid enode url` error; `setBootstrap` propagates the first
failure immediately, independently of the URLs after it; the
well-formed example URL parses to host `1.2.3.4` and port `30303`,
while `http://x` is rejected. -/
theorem url2node_failFast :
    (∀ url : String, "enode://".data.isPrefixOf url.data = false →
      url2node url = Except.error ("invalid enode url [" ++ url ++ "]")) ∧
    (∀ (good : List String) (bad : String) (rest₁ rest₂ : List String)
      (e : String),
      (∀ u ∈ good, ∃ n, url2node u = Except.ok n) →
      url2node bad = Except.error e →
      setBootstrap (good ++ bad :: rest₁) = Except.error e ∧
      setBootstrap (good ++ bad :: rest₁) = setBootstrap (good ++ bad :: rest₂)) ∧
    url2node "enode://abc@1.2.3.4:30303" =
      Except.ok ⟨"abc", "1.2.3.4", 30303⟩ ∧
    (∃ e, url2node "http://x" = Except.error e) := by
  refine ⟨?_, ?_, rfl, ⟨"invalid enode url [" ++ "http://x" ++ "]", rfl⟩⟩
  · intro url h
    simp [url2node, h]
  · intro good bad r1 r2 e hg hb
    have h1 := setBootstrap_append_error good bad r1 e hg hb
    have h2 := setBootstrap_append_error good bad r2 e hg hb
    exact ⟨h1, h1.trans h2.symm⟩

/-- Witness for C2: a malformed URL in second position aborts the
whole bootstrap resolution with its error. -/
theorem url2node_failFast_witness :
    url2node "http://x" =
      Except.error ("invalid enode url [" ++ "http://x" ++ "]") ∧
    setBootstrap ["enode://abc@1.2.3.4:30303", "http://x", "enode://zzz"] =
      Except.error ("invalid enode url [" ++ "http://x" ++ "]") :=
  ⟨url2node_failFast.1 "http://x" (by decide),
   (url2node_failFast.2.1 ["enode://abc@1.2.3.4:30303"] "http://x"
     ["enode://zzz"] [] ("invalid enode url [" ++ "http://x" ++ "]")
     (by intro u hu
         simp at hu
         subst hu
         exact ⟨⟨"abc", "1.2.3.4", 30303⟩, rfl⟩)
     rfl).1⟩

/-- C8: when every bootstrap URL parses, `setBootstrap` succeeds with a
node list of the same length whose i-th element is the parse of the
i-th URL. -/
theorem setBootstrap_preserves_order (urls : List String)
    (h : ∀ u ∈ urls, ∃ n, url2node u = Except.ok n) :
    ∃ ns : List ENode, setBootstrap urls = Except.ok ns ∧
      ns.length = urls.length ∧
      ∀ (i : Nat) (hu : i < urls.length) (hn : i < ns.length),
        url2node urls[i] = Except.ok ns[i] := by
  induction urls with
  | nil =>
    refine ⟨[], rfl, rfl, ?_⟩
    intro i hu
    simp at hu
  | cons u us ih =>
    obtain ⟨n, hn⟩ := h u (by simp)
    obtain ⟨ns, hs, hl, hidx⟩ := ih (fun v hv => h v (by simp [hv]))
    refine ⟨n :: ns, by simp [setBootstrap, hn, hs], by simp [hl], ?_⟩
    intro i hu hni
    cases i with
    | zero => simpa using hn
    | succ i =>
      simp only [List.getElem_cons_succ]
      exact hidx i (by simpa using hu) (by simpa using hni)

/-- Witness for C8 on a two-element bootstrap list. -/
theorem setBootstrap_preserves_order_witness :
    ∃ ns : List ENode,
      setBootstrap ["enode://abc@1.2.3.4:30303", "enode://def@5.6.7.8:30304"] =
        Except.ok ns ∧ ns.length = 2 := by
  obtain ⟨ns, h1, h2, _⟩ := setBootstrap_preserves_order
    ["enode://abc@1.2.3.4:30303", "enode://def@5.6.7.8:30304"]
    (by intro u hu
        simp at hu
        rcases hu with rfl | rfl
        · exact ⟨⟨"abc", "1.2.3.4", 30303⟩, rfl⟩
        · exact ⟨⟨"def", "5.6.7.8", 30304⟩, rfl⟩)
  exact ⟨ns, h1, h2⟩

theorem run_initialState (r : Except String Unit) :
    run r initialState = initialState := rfl

theorem runs_initialState (rs : List (Except String Unit)) :
    rs.foldl (fun s r => run r s) initialState = initialState := by
  induction rs with
  | nil => rfl
  | cons r rs ih => exact ih

/-- C3: when configuration fails, `init` leaves the crawler not ready
and any sequence of subsequent `run` calls creates no local node,
signals no start and starts no crawl loop. -/
theorem crawler_config_failure_inert (nodeKey : String) (urls : List String)
    (dbResult : Except String Unit) (e : String)
    (h : configure nodeKey urls dbResult = Except.error e) :
    (init nodeKey urls dbResult initialState).isReady = false ∧
    ∀ rs : List (Except String Unit),
      (rs.foldl (fun s r => run r s)
        (init nodeKey urls dbResult initialState)).nodeCreated = false ∧
      (rs.foldl (fun s r => run r s)
        (init nodeKey urls dbResult initialState)).startedSignaled = false ∧
      (rs.foldl (fun s r => run r s)
        (init nodeKey urls dbResult initialState)).crawlStarted = false := by
  have hinit : init nodeKey urls dbResult initialState = initialState := by
    simp [init, h]
  rw [hinit]
  exact ⟨rfl, fun rs => by rw [runs_initialState]; exact ⟨rfl, rfl, rfl⟩⟩

/-- Witness for C3: an unparsable node key makes configuration fail and
a subsequent run starts nothing. -/
theorem crawler_config_failure_inert_witness :
    (init "zz" [] (Except.ok ()) initialState).isReady = false ∧
    ([Except.ok ()].foldl (fun s r => run r s)
      (init "zz" [] (Except.ok ()) initialState)).crawlStarted = false := by
  have h := crawler_config_failure_inert "zz" [] (Except.ok ())
    ("invalid hex key " ++ "zz") rfl
  exact ⟨h.1, (h.2 [Except.ok ()]).2.2⟩

theorem decodeRow_url (doc : BsonDoc) (row : BsonRow)
    (h : decodeRow doc = some row) : getStr "url" doc = some row.url := by
  simp only [decodeRow, Option.bind_eq_some, Option.some.injEq] at h
  obtain ⟨sch, h1, u, h2, sc, h3, f, h4, v, h5, c, h6, h7⟩ := h
  subst h7
  exact h2

/-- C5: a stored document whose `url` field does not parse as a node
address makes `UnmarshalBSON` fail, and on that error path the
receiver's score and timestamps are left unchanged. -/
theorem unmarshalBSON_bad_url_preserves (nn : NetworkNode) (doc : BsonDoc)
    (h : ∀ u, getStr "url" doc = some u → parseNodeV4 u = none) :
    (UnmarshalBSON nn doc).1.isSome = true ∧
    (UnmarshalBSON nn doc).2.Score = nn.Score ∧
    (UnmarshalBSON nn doc).2.Found = nn.Found ∧
    (UnmarshalBSON nn doc).2.LastResponse = nn.LastResponse ∧
    (UnmarshalBSON nn doc).2.LastCheck = nn.LastCheck := by
  unfold UnmarshalBSON
  cases hdec : decodeRow doc with
  | none => simp
  | some row =>
    have hu := decodeRow_url doc row hdec
    have hp := h row.url hu
    simp [hp]

/-- Witness for C5 on a document carrying a malformed `url`. -/
theorem unmarshalBSON_bad_url_preserves_witness :
    (UnmarshalBSON ⟨none, 9, 1, 2, 3⟩
      [("url", BsonValue.str "http://x")]).1.isSome = true ∧
    (UnmarshalBSON ⟨none, 9, 1, 2, 3⟩
      [("url", BsonValue.str "http://x")]).2.Score = 9 ∧
    (UnmarshalBSON ⟨none, 9, 1, 2, 3⟩
      [("url", BsonValue.str "http://x")]).2.Found = 1 ∧
    (UnmarshalBSON ⟨none, 9, 1, 2, 3⟩
      [("url", BsonValue.str "http://x")]).2.LastResponse = 2 ∧
    (UnmarshalBSON ⟨none, 9, 1, 2, 3⟩
      [("url", BsonValue.str "http://x")]).2.LastCheck = 3 := by
  have h := unmarshalBSON_bad_url_preserves ⟨none, 9, 1, 2, 3⟩
    [("url", BsonValue.str "http://x")]
    (by intro u hu
        have h2 : some "http://x" = some u := hu
        injection h2 with h2
        subst h2
        rfl)
  exact ⟨h.1, h.2.1, h.2.2.1, h.2.2.2.1, h.2.2.2.2⟩

/-- C6: for a record with a node pointer, `MarshalBSON` produces a
document with exactly the fields `scheme`, `url`, `score`, `found`,
`valid`, `check`, where `url` is the canonical node address and the
remaining fields copy the record. -/
theorem marshalBSON_doc_fields (nn : NetworkNode) (n : ENode)
    (h : nn.Node = some n) :
    ∃ doc : BsonDoc, MarshalBSON nn = some doc ∧
      doc.map Prod.fst = ["scheme", "url", "score", "found", "valid", "check"] ∧
      findField "scheme" doc = some (BsonValue.str "v4") ∧
      findField "url" doc = some (BsonValue.str (nodeURL n)) ∧
      findField "score" doc = some (BsonValue.int nn.Score) ∧
      findField "found" doc = some (BsonValue.time nn.Found) ∧
      findField "valid" doc = some (BsonValue.time nn.LastResponse) ∧
      findField "check" doc = some (BsonValue.time nn.LastCheck) := by
  have hm : MarshalBSON nn = some [("scheme", BsonValue.str "v4"),
      ("url", BsonValue.str (nodeURL n)), ("score", BsonValue.int nn.Score),
      ("found", BsonValue.time nn.Found),
      ("valid", BsonValue.time nn.LastResponse),
      ("check", BsonValue.time nn.LastCheck)] := by
    unfold MarshalBSON
    rw [h]
  exact ⟨_, hm, rfl, rfl, rfl, rfl, rfl, rfl, rfl⟩

/-- Witness for C6 on a concrete record. -/
theorem marshalBSON_doc_fields_witness :
    ∃ doc : BsonDoc,
      MarshalBSON ⟨some ⟨"abc", "1.2.3.4", 30303⟩, 7, 1, 2, 3⟩ = some doc ∧
      doc.map Prod.fst = ["scheme", "url", "score", "found", "valid", "check"] ∧
      findField "url" doc =
        some (BsonValue.str (nodeURL ⟨"abc", "1.2.3.4", 30303⟩)) := by
  obtain ⟨doc, h1, h2, _, h4, _⟩ := marshalBSON_doc_fields
    ⟨some ⟨"abc", "1.2.3.4", 30303⟩, 7, 1, 2, 3⟩ ⟨"abc", "1.2.3.4", 30303⟩ rfl
  exact ⟨doc, h1, h2, h4⟩

/-- C9: decoding the encoded document of a record with a valid node
yields the same node identity, re-derived from the `url` string, and
the same score and timestamps. -/
theorem marshal_unmarshal_roundtrip (nn nn0 : NetworkNode) (n : ENode)
    (doc : BsonDoc) (h : nn.Node = some n) (hwf : n.wellFormed)
    (hdoc : MarshalBSON nn = some doc) :
    UnmarshalBSON nn0 doc =
      (none, { Node := some n, Score := nn.Score, Found := nn.Found,
               LastResponse := nn.LastResponse, LastCheck := nn.LastCheck }) := by
  have hm : MarshalBSON nn = some [("scheme", BsonValue.str "v4"),
      ("url", BsonValue.str (nodeURL n)), ("score", BsonValue.int nn.Score),
      ("found", BsonValue.time nn.Found),
      ("valid", BsonValue.time nn.LastResponse),
      ("check", BsonValue.time nn.LastCheck)] := by
    unfold MarshalBSON
    rw [h]
  rw [hdoc] at hm
  injection hm with hm
  subst hm
  have hp : parseNodeV4 (nodeURL n) = some n := parseNodeV4_nodeURL n hwf
  have key : UnmarshalBSON nn0 [("scheme", BsonValue.str "v4"),
      ("url", BsonValue.str (nodeURL n)), ("score", BsonValue.int nn.Score),
      ("found", BsonValue.time nn.Found),
      ("valid", BsonValue.time nn.LastResponse),
      ("check", BsonValue.time nn.LastCheck)] =
      (match parseNodeV4 (nodeURL n) with
       | none => (some ("corrupt node URL " ++ nodeURL n),
                  { nn0 with Node := none })
       | some nd => (none, { Node := some nd, Score := nn.Score,
                             Found := nn.Found, LastResponse := nn.LastResponse,
                             LastCheck := nn.LastCheck })) := rfl
  rw [key, hp]

/-- Witness for C9 on a concrete record and its encoded document. -/
theorem marshal_unmarshal_roundtrip_witness :
    UnmarshalBSON ⟨none, 0, 0, 0, 0⟩
      [("scheme", BsonValue.str "v4"),
       ("url", BsonValue.str (nodeURL ⟨"abc", "1.2.3.4", 30303⟩)),
       ("score", BsonValue.int 7), ("found", BsonValue.time 1),
       ("valid", BsonValue.time 2), ("check", BsonValue.time 3)] =
      (none, ⟨some ⟨"abc", "1.2.3.4", 30303⟩, 7, 1, 2, 3⟩) :=
  marshal_unmarshal_roundtrip ⟨some ⟨"abc", "1.2.3.4", 30303⟩, 7, 1, 2, 3⟩
    ⟨none, 0, 0, 0, 0⟩ ⟨"abc", "1.2.3.4", 30303⟩
    [("scheme", BsonValue.str "v4"),
     ("url", BsonValue.str (nodeURL ⟨"abc", "1.2.3.4", 30303⟩)),
     ("score", BsonValue.int 7), ("found", BsonValue.time 1),
     ("valid", BsonValue.time 2), ("check", BsonValue.time 3)]
    rfl (by decide) rfl

end Fantom
